import Mathlib

/-!
Verification of the one-time-view image sharing service.

This file gives a shallow embedding of the core of the repository —
the record store (internal/database/database.go), the redemption
handlers (internal/handlers/handlers.go), the token generator
(internal/services/token_service.go) and the image ingestion pipeline
(internal/services, ProcessAndSaveImage) — and proves or refutes the
specification claims about it.

Modelling conventions:
- the SQLite `images` table is a `List Image`; SQL statements become
  pure functions on that list;
- `time.Now()` values are `Nat` parameters;
- the upload directory is a `List String` of file names on disk;
- external failures (disk I/O errors, database connection failures,
  entropy exhaustion) that leave the state untouched and abort the
  operation are modelled by explicit boolean/`Option` fields of the
  input where a claim depends on them, and are otherwise not modelled;
- Go's `nil` pointer for a missing record is `Option Image`; reading a
  field of a `nil` record is a crash (`Except`-style), matching Go's
  nil-pointer dereference panic.
-/

namespace ImageCleaner

/-- A row of the `images` table (models.Image): columns id, user_id,
original_filename, stored_filename, access_token, created_at,
viewed_at (nullable), status. -/
structure Image where
  id : Nat
  userID : Nat
  originalFilename : String
  storedFilename : String
  accessToken : String
  createdAt : Nat
  viewedAt : Option Nat
  status : String
  deriving DecidableEq, Repr

/-- `GetImageByToken` (database.go): `SELECT ... FROM images WHERE
access_token = ?`; returns the first row with that token, or `none`
(the Go function returns `nil, nil` on `sql.ErrNoRows`). -/
def GetImageByToken (rows : List Image) (token : String) : Option Image :=
  rows.find? (fun img => img.accessToken == token)

/-- The effect of the conditional `UPDATE` of `MarkImageViewed` on one
row: `SET status = 'viewed', viewed_at = ? WHERE access_token = ? AND
status = 'pending'`. -/
def markViewedRow (now : Nat) (token : String) (img : Image) : Image :=
  if img.accessToken = token ∧ img.status = "pending" then
    { img with status := "viewed", viewedAt := some now }
  else img

/-- `MarkImageViewed` (database.go, lines 312-351): executes the single
conditional `UPDATE` and returns the updated table together with
`rowsAffected`.  The Go function returns an error exactly when
`rowsAffected == 0` (the token was not in status 'pending'); callers
therefore see success iff the second component is nonzero. -/
def MarkImageViewed (rows : List Image) (token : String) (now : Nat) :
    List Image × Nat :=
  (rows.map (markViewedRow now token),
   (rows.filter (fun img => img.accessToken == token && img.status == "pending")).length)

/-- `UpdateImageStatus` (database.go, lines 355-386): `UPDATE images SET
status = ? WHERE id = ?` — an unconditional status write by row id. -/
def UpdateImageStatus (rows : List Image) (imageID : Nat) (newStatus : String) :
    List Image :=
  rows.map (fun img => if img.id = imageID then { img with status := newStatus } else img)

/-- A row matches the consume condition when its token equals `token`
and its status is 'pending'. -/
def pendingMatch (token : String) (img : Image) : Prop :=
  img.accessToken = token ∧ img.status = "pending"

instance (token : String) (img : Image) : Decidable (pendingMatch token img) := by
  unfold pendingMatch; infer_instance

lemma markViewedRow_of_match (now : Nat) (token : String) (img : Image)
    (h : pendingMatch token img) :
    markViewedRow now token img = { img with status := "viewed", viewedAt := some now } := by
  simp [markViewedRow, pendingMatch] at h ⊢
  simp [h.1, h.2]

lemma markViewedRow_of_not_match (now : Nat) (token : String) (img : Image)
    (h : ¬ pendingMatch token img) :
    markViewedRow now token img = img := by
  simp [pendingMatch] at h
  by_cases h1 : img.accessToken = token
  · simp [markViewedRow, h1, h h1]
  · simp [markViewedRow, h1]

lemma markViewed_affected_ne_zero_iff (rows : List Image) (token : String) (now : Nat) :
    (MarkImageViewed rows token now).2 ≠ 0 ↔ ∃ img ∈ rows, pendingMatch token img := by
  unfold MarkImageViewed
  simp only [ne_eq, List.length_eq_zero, List.filter_eq_nil_iff]
  push_neg
  simp [pendingMatch]

/-- After the conditional update runs, no row with this token is still
'pending'. -/
lemma markViewed_no_pending_after (rows : List Image) (token : String) (now : Nat) :
    ∀ img ∈ (MarkImageViewed rows token now).1, ¬ pendingMatch token img := by
  intro img hmem
  simp only [MarkImageViewed, List.mem_map] at hmem
  obtain ⟨a, _, rfl⟩ := hmem
  by_cases h : pendingMatch token a
  · rw [markViewedRow_of_match now token a h]
    simp [pendingMatch]
  · rw [markViewedRow_of_not_match now token a h]
    exact h

/-- When no row matches, the `UPDATE` affects zero rows and leaves the
table unchanged. -/
lemma markViewed_of_no_match (rows : List Image) (token : String) (now : Nat)
    (h : ∀ img ∈ rows, ¬ pendingMatch token img) :
    MarkImageViewed rows token now = (rows, 0) := by
  unfold MarkImageViewed
  have h1 : rows.map (markViewedRow now token) = rows := by
    calc rows.map (markViewedRow now token)
        = rows.map id := List.map_congr_left (fun a ha => markViewedRow_of_not_match now token a (h a ha))
      _ = rows := List.map_id rows
  have h2 : rows.filter (fun img => img.accessToken == token && img.status == "pending") = [] := by
    rw [List.filter_eq_nil_iff]
    intro a ha
    have ha2 := h a ha
    simp only [pendingMatch, not_and] at ha2
    simp only [Bool.and_eq_true, beq_iff_eq, not_and]
    exact ha2
  rw [h1, h2]
  rfl

/-- A sequence of consume attempts on the same token (the database
serializes the conflicting conditional updates, so any interleaving of
K concurrent attempts is one of these sequential orders).  Each attempt
runs `MarkImageViewed` at its own clock value and records whether it
succeeded (`rowsAffected ≠ 0`). -/
def consumeRun (token : String) : List Image → List Nat → List Bool × List Image
  | rows, [] => ([], rows)
  | rows, t :: ts =>
    let r := MarkImageViewed rows token t
    let rest := consumeRun token r.1 ts
    ((r.2 != 0) :: rest.1, rest.2)

lemma consumeRun_of_no_match (token : String) (rows : List Image) (times : List Nat)
    (h : ∀ img ∈ rows, ¬ pendingMatch token img) :
    consumeRun token rows times = (List.replicate times.length false, rows) := by
  induction times with
  | nil => rfl
  | cons t ts ih =>
    have hm := markViewed_of_no_match rows token t h
    simp only [consumeRun, hm, ih]
    simp [List.replicate_succ]

lemma consumeRun_length (token : String) (rows : List Image) (times : List Nat) :
    (consumeRun token rows times).1.length = times.length := by
  induction times generalizing rows with
  | nil => rfl
  | cons t ts ih => simp [consumeRun, ih]

/-- Starting from a table holding a 'pending' row for the token, the
first attempt of a run succeeds and every later attempt fails. -/
lemma consumeRun_of_pending (token : String) (rows : List Image) (t : Nat) (ts : List Nat)
    (hpend : ∃ img ∈ rows, pendingMatch token img) :
    (consumeRun token rows (t :: ts)).1 = true :: List.replicate ts.length false := by
  have h1 : (MarkImageViewed rows token t).2 ≠ 0 :=
    (markViewed_affected_ne_zero_iff rows token t).2 hpend
  have h2 := consumeRun_of_no_match token (MarkImageViewed rows token t).1 ts
    (markViewed_no_pending_after rows token t)
  have h1b : ((MarkImageViewed rows token t).2 != 0) = true := by
    simpa using h1
  simp only [consumeRun, h2, h1b]

/-- The positional specification of the conditional update: every row
matching (token, 'pending') becomes 'viewed' with `viewed_at` set to
the update time, and every other row is untouched. -/
lemma markViewed_pointwise (rows : List Image) (token : String) (now : Nat) :
    List.Forall₂
      (fun old new =>
        (pendingMatch token old →
          new = { old with status := "viewed", viewedAt := some now }) ∧
        (¬ pendingMatch token old → new = old))
      rows (MarkImageViewed rows token now).1 := by
  unfold MarkImageViewed
  simp only
  rw [List.forall₂_map_right_iff, List.forall₂_same]
  intro a _
  exact ⟨markViewedRow_of_match now token a, markViewedRow_of_not_match now token a⟩

/-- **C1**: `MarkImageViewed token` succeeds iff some row has that
access token in status 'pending'; on success it atomically moves every
such row to 'viewed' with `viewed_at` set (and touches nothing else),
and on failure (`NotPending`, zero rows affected) it leaves the table
unchanged.  Consequently a run of K ≥ 1 consume attempts on a token
that starts 'pending' yields exactly one success and K−1 `NotPending`
results, in every serialization order of the attempts. -/
theorem c1_markViewed_at_most_once (rows : List Image) (token : String)
    (now : Nat) (times : List Nat) (hK : times ≠ [])
    (hpend : ∃ img ∈ rows, img.accessToken = token ∧ img.status = "pending") :
    (∀ (rows2 : List Image) (now2 : Nat),
      ((MarkImageViewed rows2 token now2).2 ≠ 0 ↔
        ∃ img ∈ rows2, img.accessToken = token ∧ img.status = "pending") ∧
      ((MarkImageViewed rows2 token now2).2 = 0 →
        (MarkImageViewed rows2 token now2).1 = rows2)) ∧
    List.Forall₂
      (fun old new =>
        (old.accessToken = token ∧ old.status = "pending" →
          new = { old with status := "viewed", viewedAt := some now }) ∧
        (¬ (old.accessToken = token ∧ old.status = "pending") → new = old))
      rows (MarkImageViewed rows token now).1 ∧
    (consumeRun token rows times).1.length = times.length ∧
    (consumeRun token rows times).1.count true = 1 ∧
    (consumeRun token rows times).1.count false = times.length - 1 := by
  obtain ⟨t, ts, rfl⟩ := List.exists_cons_of_ne_nil hK
  have hrun := consumeRun_of_pending token rows t ts hpend
  refine ⟨?_, markViewed_pointwise rows token now, consumeRun_length token rows (t :: ts), ?_, ?_⟩
  · intro rows2 now2
    refine ⟨markViewed_affected_ne_zero_iff rows2 token now2, ?_⟩
    intro h0
    by_cases hp : ∃ img ∈ rows2, pendingMatch token img
    · exact absurd h0 ((markViewed_affected_ne_zero_iff rows2 token now2).2 hp)
    · push_neg at hp
      exact congrArg Prod.fst (markViewed_of_no_match rows2 token now2 hp)
  · rw [hrun]
    simp [List.count_cons, List.count_replicate]
  · rw [hrun]
    simp [List.count_cons, List.count_replicate]

/-- A concrete 'pending' row used by witnesses below. -/
def pendingRec : Image :=
  { id := 1, userID := 7, originalFilename := "photo.jpg", storedFilename := "r1.png",
    accessToken := "tok", createdAt := 0, viewedAt := none, status := "pending" }

theorem c1_markViewed_at_most_once_witness :
    (consumeRun "tok" [pendingRec] [3, 4, 5]).1.count true = 1 ∧
    (consumeRun "tok" [pendingRec] [3, 4, 5]).1.count false = 2 := by
  have h := c1_markViewed_at_most_once [pendingRec] "tok" 3 [3, 4, 5] (by decide)
    ⟨pendingRec, ⟨List.mem_singleton.2 rfl, rfl, rfl⟩⟩
  exact ⟨h.2.2.2.1, by simpa using h.2.2.2.2⟩

/-! ### The redemption handlers (internal/handlers/handlers.go) -/

/-- The shared mutable state the handlers act on: the `images` table,
the set of files in the upload directory, the file deletions already
scheduled (the detached delete goroutines that have not run yet), and
the current clock. -/
structure SystemState where
  rows : List Image
  files : List String
  pendingDeletes : List String
  now : Nat
  deriving DecidableEq, Repr

/-- What a handler renders to the caller: either `error.html` with an
HTTP status, a page title and a message, or the confirmation page
`confirm_view.html` carrying the token. -/
inductive Rendered
  | errorPage (status : Nat) (title : String) (message : String)
  | confirmPage (token : String)
  deriving DecidableEq, Repr

/-- `ShowConfirmViewPage` (handlers.go, lines 362-392), the preview
step: looks the token up and renders a page; the only store call is the
read-only `SELECT` of `GetImageByToken`, so the state is returned
unchanged on every branch.  The second component of the result is the
log line the branch emits (`none` when the branch logs nothing). -/
def ShowConfirmViewPage (st : SystemState) (token : String) :
    (Rendered × Option String) × SystemState :=
  if token = "" then
    ((.errorPage 400 "Ошибка запроса" "Отсутствует идентификатор изображения в ссылке.",
      none), st)
  else
    match GetImageByToken st.rows token with
    | none =>
      ((.errorPage 404 "Не найдено" "Ссылка недействительна или устарела.",
        some ("Токен " ++ token ++ " не найден в БД (GET /view).")), st)
    | some img =>
      if img.status = "pending" then
        ((.confirmPage token, none), st)
      else
        ((.errorPage 410 "Ссылка истекла"
            "Эта ссылка уже была использована или срок её действия истёк.",
          some ("Попытка доступа (GET /view) к уже использованному токену " ++ token ++
            " (статус: " ++ img.status ++ ")")), st)

/-- Reading the `Status` field of a possibly-nil `*models.Image`: on a
nil pointer this is a Go runtime panic, modelled as `Except.error`. -/
def derefStatus : Option Image → Except Unit String
  | none => .error ()
  | some img => .ok img.status

/-- Result of the re-check phase of `HandleConfirmView` (steps 1-2,
lines 396-417): either an early response, a crash, or the record to
consume. -/
inductive CheckResult
  | badRequest
  | nilDeref
  | gone
  | proceed (img : Image)
  deriving DecidableEq, Repr

/-- Steps 1-2 of `HandleConfirmView`: re-fetch by token and re-check
the status.  The branch for `img == nil || img.Status != "pending"`
first formats its log line, which reads `img.Status`; when the record
is nil that read is a nil-pointer dereference, so the branch crashes
(`nilDeref`) before it can render the Gone page. -/
def confirmCheck (rows : List Image) (token : String) : CheckResult :=
  if token = "" then .badRequest
  else
    match GetImageByToken rows token with
    | none =>
      match derefStatus none with
      | .error _ => .nilDeref
      | .ok _ => .gone
    | some img =>
      if img.status = "pending" then .proceed img
      else
        match derefStatus (some img) with
        | .error _ => .nilDeref
        | .ok _ => .gone

/-- The outcome `HandleConfirmView` produces for the caller. -/
inductive ConsumeOutcome
  | badRequest
  | crashed
  | gone
  | internalError
  | fileMissing
  | delivered (storedFilename : String)
  deriving DecidableEq, Repr

/-- Steps 3-5 of `HandleConfirmView` (lines 419-468): call
`MarkImageViewed`; any error from it — including the zero-rows
`NotPending` case — is answered with the 500 Internal Server Error
page, not with Gone.  On success, check the file exists on disk
(else 500), stream it with no-cache headers, and schedule the deferred
delete goroutine (append to `pendingDeletes`). -/
def confirmConsume (st : SystemState) (token : String) (img : Image) :
    ConsumeOutcome × SystemState :=
  let r := MarkImageViewed st.rows token st.now
  if r.2 = 0 then (.internalError, { st with rows := r.1 })
  else if img.storedFilename ∈ st.files then
    (.delivered img.storedFilename,
     { st with rows := r.1,
               pendingDeletes := st.pendingDeletes ++ [img.storedFilename] })
  else
    (.fileMissing, { st with rows := r.1 })

/-- `HandleConfirmView` (handlers.go, lines 394-468), the consume step:
re-check, then consume and deliver. -/
def HandleConfirmView (st : SystemState) (token : String) :
    ConsumeOutcome × SystemState :=
  match confirmCheck st.rows token with
  | .badRequest => (.badRequest, st)
  | .nilDeref => (.crashed, st)
  | .gone => (.gone, st)
  | .proceed img => confirmConsume st token img

/-- The deferred delete goroutine: after its 2-second sleep it removes
the scheduled file from the upload directory (`os.Remove`). -/
def runPendingDelete (st : SystemState) : SystemState :=
  match st.pendingDeletes with
  | [] => st
  | f :: rest => { st with files := st.files.erase f, pendingDeletes := rest }

/-- `n` repeated preview requests for the same token. -/
def previewIter (st : SystemState) (token : String) : Nat → SystemState
  | 0 => st
  | n + 1 => previewIter ((ShowConfirmViewPage st token).2) token n

lemma preview_state_eq (st : SystemState) (token : String) :
    (ShowConfirmViewPage st token).2 = st := by
  unfold ShowConfirmViewPage
  split
  · rfl
  · split
    · rfl
    · split <;> rfl

lemma previewIter_eq (st : SystemState) (token : String) (n : Nat) :
    previewIter st token n = st := by
  induction n generalizing st with
  | zero => rfl
  | succ n ih => rw [previewIter, preview_state_eq, ih]

/-- **C3**: the preview step has no side effects: a single preview
returns the state unchanged (no record's status, `viewed_at` or other
field changes, no file is created or removed, no deletion is
scheduled), any number of repeated previews leave the state unchanged,
and a 'pending' row is still in the table with status 'pending' after
arbitrarily many previews. -/
theorem c3_preview_no_side_effects (st : SystemState) (token : String) (n : Nat) :
    (ShowConfirmViewPage st token).2 = st ∧
    previewIter st token n = st ∧
    (previewIter st token n).files = st.files ∧
    (previewIter st token n).pendingDeletes = st.pendingDeletes ∧
    ∀ img ∈ st.rows, img.status = "pending" →
      img ∈ (previewIter st token n).rows ∧ img.status = "pending" := by
  refine ⟨preview_state_eq st token, previewIter_eq st token n, ?_, ?_, ?_⟩
  · rw [previewIter_eq]
  · rw [previewIter_eq]
  · intro img hmem hstat
    rw [previewIter_eq]
    exact ⟨hmem, hstat⟩

/-- **C4**: the consume handler itself never removes a file from the
upload directory; on every path whose outcome is not `delivered` it
also schedules no deletion; a deletion is scheduled only when the
conditional `pending → viewed` update affected a row; and the deferred
delete step only ever removes files that were scheduled. -/
theorem c4_no_delete_before_consume (st : SystemState) (token : String) :
    (HandleConfirmView st token).2.files = st.files ∧
    ((¬ ∃ f, (HandleConfirmView st token).1 = ConsumeOutcome.delivered f) →
      (HandleConfirmView st token).2.pendingDeletes = st.pendingDeletes) ∧
    ((HandleConfirmView st token).2.pendingDeletes ≠ st.pendingDeletes →
      (MarkImageViewed st.rows token st.now).2 ≠ 0) ∧
    (∀ f ∈ st.files, f ∉ (runPendingDelete st).files → f ∈ st.pendingDeletes) := by
  have hrun : ∀ f ∈ st.files, f ∉ (runPendingDelete st).files → f ∈ st.pendingDeletes := by
    intro f hf hnot
    cases hd : st.pendingDeletes with
    | nil =>
      unfold runPendingDelete at hnot
      rw [hd] at hnot
      exact absurd hf hnot
    | cons a rest =>
      unfold runPendingDelete at hnot
      rw [hd] at hnot
      simp only at hnot
      by_cases hfa : f = a
      · rw [hfa]; exact List.mem_cons_self a rest
      · exact absurd ((List.mem_erase_of_ne hfa).2 hf) hnot
  have hcc : ∀ img : Image,
      (confirmConsume st token img).2.files = st.files ∧
      ((confirmConsume st token img).1 ≠ ConsumeOutcome.delivered img.storedFilename →
        (confirmConsume st token img).2.pendingDeletes = st.pendingDeletes) ∧
      ((confirmConsume st token img).2.pendingDeletes ≠ st.pendingDeletes →
        (MarkImageViewed st.rows token st.now).2 ≠ 0) := by
    intro img
    simp only [confirmConsume]
    by_cases h0 : (MarkImageViewed st.rows token st.now).2 = 0
    · rw [if_pos h0]
      exact ⟨rfl, fun _ => rfl, fun h => absurd rfl h⟩
    · rw [if_neg h0]
      by_cases hf : img.storedFilename ∈ st.files
      · rw [if_pos hf]
        exact ⟨rfl, fun h => absurd rfl h, fun _ => h0⟩
      · rw [if_neg hf]
        exact ⟨rfl, fun _ => rfl, fun h => absurd rfl h⟩
  unfold HandleConfirmView
  cases confirmCheck st.rows token with
  | badRequest => exact ⟨rfl, fun _ => rfl, fun h => absurd rfl h, hrun⟩
  | nilDeref => exact ⟨rfl, fun _ => rfl, fun h => absurd rfl h, hrun⟩
  | gone => exact ⟨rfl, fun _ => rfl, fun h => absurd rfl h, hrun⟩
  | proceed img =>
    refine ⟨(hcc img).1, ?_, (hcc img).2.2, hrun⟩
    intro hno
    refine (hcc img).2.1 ?_
    intro hdel
    exact hno ⟨img.storedFilename, hdel⟩

/-- **C10**: when the consume handler is invoked with a nonempty token
for which no record exists, the `img == nil || img.Status != "pending"`
branch formats a log line that reads the status field of the nil
record, so the request crashes on a nil-pointer dereference instead of
completing the Gone response. -/
theorem c10_consume_nil_deref (rows : List Image) (token : String)
    (hne : token ≠ "") (habs : GetImageByToken rows token = none) :
    confirmCheck rows token = CheckResult.nilDeref ∧
    confirmCheck rows token ≠ CheckResult.gone ∧
    ∀ st : SystemState, st.rows = rows →
      (HandleConfirmView st token).1 = ConsumeOutcome.crashed := by
  have h : confirmCheck rows token = CheckResult.nilDeref := by
    unfold confirmCheck
    rw [if_neg hne, habs]
    rfl
  refine ⟨h, by simp [h], ?_⟩
  intro st hst
  unfold HandleConfirmView
  rw [hst, h]

theorem c10_consume_nil_deref_witness :
    confirmCheck [] "t" = CheckResult.nilDeref ∧
    confirmCheck [] "t" ≠ CheckResult.gone :=
  ⟨(c10_consume_nil_deref [] "t" (by decide) rfl).1,
   (c10_consume_nil_deref [] "t" (by decide) rfl).2.1⟩

lemma confirmCheck_proceed (rows : List Image) (token : String) (img : Image)
    (h : confirmCheck rows token = CheckResult.proceed img) :
    token ≠ "" ∧ GetImageByToken rows token = some img ∧ img.status = "pending" := by
  unfold confirmCheck at h
  by_cases hne : token = ""
  · rw [if_pos hne] at h
    exact absurd h (by simp)
  · rw [if_neg hne] at h
    cases hget : GetImageByToken rows token with
    | none =>
      rw [hget] at h
      exact absurd h (by simp [derefStatus])
    | some i =>
      rw [hget] at h
      have h2 : (if i.status = "pending" then CheckResult.proceed i
          else CheckResult.gone) = CheckResult.proceed img := h
      by_cases hstat : i.status = "pending"
      · rw [if_pos hstat] at h2
        simp only [CheckResult.proceed.injEq] at h2
        exact ⟨hne, congrArg some h2, by rw [← h2]; exact hstat⟩
      · rw [if_neg hstat] at h2
        exact absurd h2 (by simp)

lemma getImageByToken_some (rows : List Image) (token : String) (img : Image)
    (h : GetImageByToken rows token = some img) :
    img ∈ rows ∧ img.accessToken = token := by
  unfold GetImageByToken at h
  refine ⟨List.mem_of_find?_eq_some h, ?_⟩
  have := List.find?_some h
  simpa using this

/-- A concrete shared state holding the single 'pending' row and its
backing file, from which two racing confirmations start. -/
def raceState : SystemState :=
  { rows := [pendingRec], files := ["r1.png"], pendingDeletes := [], now := 5 }

/-- Consuming against a table with no 'pending' row for the token ends
in the Internal Server Error page: `MarkImageViewed` affects zero rows
and the handler treats its error as a generic server error. -/
lemma confirmConsume_internalError (st : SystemState) (token : String) (img : Image)
    (h : ∀ i ∈ st.rows, ¬ pendingMatch token i) :
    (confirmConsume st token img).1 = ConsumeOutcome.internalError := by
  have h0 : (MarkImageViewed st.rows token st.now).2 = 0 := by
    rw [markViewed_of_no_match st.rows token st.now h]
  simp only [confirmConsume]
  rw [if_pos h0]

/-- **C2 counterexample**: in the race where both confirmations pass the
'pending' re-check, the loser — the one whose `MarkImageViewed` affects
zero rows — receives the 500 Internal Server Error page, not the Gone
outcome, contradicting the claim that `NotPending` from `markViewed` is
answered with Gone. -/
theorem c2_counterexample :
    confirmCheck raceState.rows "tok" = CheckResult.proceed pendingRec ∧
    (confirmConsume raceState "tok" pendingRec).1 = ConsumeOutcome.delivered "r1.png" ∧
    (confirmConsume (confirmConsume raceState "tok" pendingRec).2 "tok" pendingRec).1 =
      ConsumeOutcome.internalError ∧
    (confirmConsume (confirmConsume raceState "tok" pendingRec).2 "tok" pendingRec).1 ≠
      ConsumeOutcome.gone := by
  decide

/-- **C2 amended**: when `MarkImageViewed` reports `NotPending` inside
the consume step, the caller is answered with the Internal Server Error
page (a generic server error); the Gone response is produced only when
the re-check itself already sees a non-'pending' record.  In the race
where both requests pass the re-check on the same 'pending' token, the
pair of outcomes is exactly one `delivered` and one `internalError`
(still at most one success, but the loser sees 500, not Gone). -/
theorem c2_amended_race_loser_gets_500 (st : SystemState) (token : String) (img : Image)
    (hcheck : confirmCheck st.rows token = CheckResult.proceed img)
    (hfile : img.storedFilename ∈ st.files) :
    (confirmConsume st token img).1 = ConsumeOutcome.delivered img.storedFilename ∧
    (confirmConsume (confirmConsume st token img).2 token img).1 =
      ConsumeOutcome.internalError := by
  obtain ⟨hne, hget, hstat⟩ := confirmCheck_proceed st.rows token img hcheck
  obtain ⟨hmem, htok⟩ := getImageByToken_some st.rows token img hget
  have h1 : (MarkImageViewed st.rows token st.now).2 ≠ 0 :=
    (markViewed_affected_ne_zero_iff st.rows token st.now).2 ⟨img, hmem, htok, hstat⟩
  have hA : confirmConsume st token img =
      (ConsumeOutcome.delivered img.storedFilename,
       { st with rows := (MarkImageViewed st.rows token st.now).1,
                 pendingDeletes := st.pendingDeletes ++ [img.storedFilename] }) := by
    simp only [confirmConsume]
    rw [if_neg h1, if_pos hfile]
  refine ⟨by rw [hA], ?_⟩
  apply confirmConsume_internalError
  rw [hA]
  exact markViewed_no_pending_after st.rows token st.now

theorem c2_amended_race_loser_gets_500_witness :
    (confirmConsume raceState "tok" pendingRec).1 =
      ConsumeOutcome.delivered pendingRec.storedFilename ∧
    (confirmConsume (confirmConsume raceState "tok" pendingRec).2 "tok" pendingRec).1 =
      ConsumeOutcome.internalError :=
  c2_amended_race_loser_gets_500 raceState "tok" pendingRec (by decide) (by decide)

/-- A concrete consumed ('viewed') row with the same access token as
the absent-token scenario compares against. -/
def viewedRec : Image :=
  { id := 2, userID := 7, originalFilename := "photo2.jpg", storedFilename := "r2.png",
    accessToken := "tok", createdAt := 0, viewedAt := some 3, status := "viewed" }

/-- **C8 counterexample**: the user-visible response for a token that
never existed (rows empty) differs from the response for the same token
already consumed — 404 "Не найдено"/"Ссылка недействительна или
устарела." versus 410 "Ссылка истекла"/"Эта ссылка уже была
использована или срок её действия истёк." — so the two cases are
distinguished in what is shown to the caller, contrary to the claim. -/
theorem c8_counterexample :
    (ShowConfirmViewPage { rows := [], files := [], pendingDeletes := [], now := 0 } "tok").1.1 ≠
    (ShowConfirmViewPage { rows := [viewedRec], files := [], pendingDeletes := [], now := 0 }
      "tok").1.1 := by
  decide

/-- **C8 amended**: a token that never existed and a token that is no
longer 'pending' both end in a terminal error page telling the caller
the link is invalid/expired, and the server log names the precise cause
(token absent vs. its actual status); but the two user-visible
responses are distinguishable — HTTP 404 with one message for the
former, HTTP 410 with a different message for the latter. -/
theorem c8_amended_distinct_terminal_pages (st : SystemState) (token : String)
    (hne : token ≠ "") :
    (GetImageByToken st.rows token = none →
      (ShowConfirmViewPage st token).1 =
        (Rendered.errorPage 404 "Не найдено" "Ссылка недействительна или устарела.",
         some ("Токен " ++ token ++ " не найден в БД (GET /view)."))) ∧
    (∀ img, GetImageByToken st.rows token = some img → img.status ≠ "pending" →
      (ShowConfirmViewPage st token).1 =
        (Rendered.errorPage 410 "Ссылка истекла"
           "Эта ссылка уже была использована или срок её действия истёк.",
         some ("Попытка доступа (GET /view) к уже использованному токену " ++ token ++
           " (статус: " ++ img.status ++ ")"))) ∧
    (Rendered.errorPage 404 "Не найдено" "Ссылка недействительна или устарела." ≠
      Rendered.errorPage 410 "Ссылка истекла"
        "Эта ссылка уже была использована или срок её действия истёк.") := by
  refine ⟨?_, ?_, by decide⟩
  · intro habs
    unfold ShowConfirmViewPage
    rw [if_neg hne, habs]
  · intro img hget hstat
    unfold ShowConfirmViewPage
    rw [if_neg hne, hget]
    simp only [if_neg hstat]

theorem c8_amended_distinct_terminal_pages_witness :
    (ShowConfirmViewPage { rows := [], files := [], pendingDeletes := [], now := 0 } "tok").1 =
      (Rendered.errorPage 404 "Не найдено" "Ссылка недействительна или устарела.",
       some ("Токен " ++ "tok" ++ " не найден в БД (GET /view).")) :=
  (c8_amended_distinct_terminal_pages
    { rows := [], files := [], pendingDeletes := [], now := 0 } "tok" (by decide)).1 rfl

/-! ### Status monotonicity (C9) -/

/-- Position of a status along the lifecycle chain
pending → viewed → (deleted, delete_failed): rank 0 for 'pending',
1 for 'viewed', 2 for every terminal string. -/
def statusRank (s : String) : Nat :=
  if s = "pending" then 0 else if s = "viewed" then 1 else 2

/-- One row's status moved forward along the chain and, in particular,
never returned to 'pending' from another state. -/
def forwardStep (oldStatus newStatus : String) : Prop :=
  statusRank oldStatus ≤ statusRank newStatus ∧
  (newStatus = "pending" → oldStatus = "pending")

/-- A table operation is monotone when it moves every row's status only
forward along the chain. -/
def monotoneOp (f : List Image → List Image) : Prop :=
  ∀ rows : List Image,
    List.Forall₂ (fun old new => forwardStep old.status new.status) rows (f rows)

instance (a b : String) : Decidable (forwardStep a b) := by
  unfold forwardStep; infer_instance

lemma statusRank_le_two (s : String) : statusRank s ≤ 2 := by
  unfold statusRank
  split
  · omega
  · split <;> omega

/-- **C9 counterexample**: `UpdateImageStatus` is an unconditional
status write; invoked with newStatus 'pending' on a 'viewed' row, it
moves the record back to 'pending', so not every store operation that
changes a record's status moves it forward along the chain. -/
theorem c9_counterexample :
    ¬ (∀ (imageID : Nat) (newStatus : String),
        monotoneOp (fun rows => UpdateImageStatus rows imageID newStatus)) := by
  intro h
  have h2 : List.Forall₂ (fun old new => forwardStep old.status new.status)
      [viewedRec] (UpdateImageStatus [viewedRec] 2 "pending") := h 2 "pending" [viewedRec]
  have hval : UpdateImageStatus [viewedRec] 2 "pending" =
      [{ viewedRec with status := "pending" }] := by decide
  rw [hval] at h2
  cases h2 with
  | cons hrel _ =>
    have hno : ¬ forwardStep viewedRec.status
        ({ viewedRec with status := "pending" } : Image).status := by decide
    exact hno hrel

/-- **C9 amended**: `MarkImageViewed` is monotone — it only ever moves
a 'pending' row to 'viewed' and leaves every other row unchanged — and
`UpdateImageStatus` is monotone whenever it is invoked with one of the
terminal statuses 'deleted' or 'delete_failed', which are the only
statuses this codebase ever passes to it (its call sites, all commented
out, pass exactly these).  The store itself does not guard
`UpdateImageStatus` against moving a row back to 'pending'. -/
theorem c9_amended_monotone_transitions (token : String) (now : Nat)
    (imageID : Nat) (newStatus : String)
    (hs : newStatus = "deleted" ∨ newStatus = "delete_failed") :
    monotoneOp (fun rows => (MarkImageViewed rows token now).1) ∧
    monotoneOp (fun rows => UpdateImageStatus rows imageID newStatus) := by
  constructor
  · intro rows
    show List.Forall₂ _ rows (rows.map (markViewedRow now token))
    rw [List.forall₂_map_right_iff, List.forall₂_same]
    intro a _
    by_cases hp : pendingMatch token a
    · rw [markViewedRow_of_match now token a hp]
      show forwardStep a.status "viewed"
      rw [hp.2]
      decide
    · rw [markViewedRow_of_not_match now token a hp]
      exact ⟨le_refl _, fun h => h⟩
  · intro rows
    show List.Forall₂ _ rows
      (rows.map (fun img => if img.id = imageID then { img with status := newStatus } else img))
    rw [List.forall₂_map_right_iff, List.forall₂_same]
    intro a _
    by_cases hid : a.id = imageID
    · rw [if_pos hid]
      show forwardStep a.status newStatus
      constructor
      · rcases hs with rfl | rfl
        · rw [show statusRank "deleted" = 2 from by decide]
          exact statusRank_le_two a.status
        · rw [show statusRank "delete_failed" = 2 from by decide]
          exact statusRank_le_two a.status
      · intro hpend
        rcases hs with rfl | rfl <;> exact absurd hpend (by decide)
    · rw [if_neg hid]
      exact ⟨le_refl _, fun h => h⟩

theorem c9_amended_monotone_transitions_witness :
    List.Forall₂ (fun old new => forwardStep old.status new.status)
      [viewedRec] (UpdateImageStatus [viewedRec] 2 "deleted") :=
  (c9_amended_monotone_transitions "tok" 0 2 "deleted" (Or.inl rfl)).2 [viewedRec]

/-! ### The token generator (internal/services/token_service.go)

`GenerateSecureToken(length)` reads `length` bytes from `crypto/rand`
and encodes them with `base64.URLEncoding.EncodeToString` — the padded
URL-safe base64 alphabet (`A-Z a-z 0-9 - _` plus trailing `=` padding).
The random source is modelled by passing the read bytes in. -/

/-- The 64 digits of Go's `base64.URLEncoding` alphabet. -/
def base64Alphabet : List Char :=
  ['A', 'B', 'C', 'D', 'E', 'F', 'G', 'H', 'I', 'J', 'K', 'L', 'M',
   'N', 'O', 'P', 'Q', 'R', 'S', 'T', 'U', 'V', 'W', 'X', 'Y', 'Z',
   'a', 'b', 'c', 'd', 'e', 'f', 'g', 'h', 'i', 'j', 'k', 'l', 'm',
   'n', 'o', 'p', 'q', 'r', 's', 't', 'u', 'v', 'w', 'x', 'y', 'z',
   '0', '1', '2', '3', '4', '5', '6', '7', '8', '9', '-', '_']

/-- Digit `n` of the URL-safe base64 alphabet. -/
def b64c (n : Nat) : Char := base64Alphabet.getD n 'A'

/-- Padded base64 encoding over the URL-safe alphabet, as performed by
`base64.URLEncoding.EncodeToString`: groups of three bytes become four
digits; a final group of one or two bytes is padded with `==` or `=`. -/
def base64urlEncode : List Nat → List Char
  | [] => []
  | [b1] => [b64c (b1 / 4), b64c (b1 % 4 * 16), '=', '=']
  | [b1, b2] => [b64c (b1 / 4), b64c (b1 % 4 * 16 + b2 / 16), b64c (b2 % 16 * 4), '=']
  | b1 :: b2 :: b3 :: rest =>
    b64c (b1 / 4) :: b64c (b1 % 4 * 16 + b2 / 16) ::
    b64c (b2 % 16 * 4 + b3 / 64) :: b64c (b3 % 64) :: base64urlEncode rest

/-- `GenerateSecureToken` (token_service.go, lines 10-22) with the
bytes read from `crypto/rand` made explicit; the Go function calls it
with `length = 32`, so `randomBytes` has 32 entries there. -/
def GenerateSecureToken (randomBytes : List Nat) : String :=
  String.mk (base64urlEncode randomBytes)

/-- RFC 3986 unreserved characters — never percent-encoded anywhere in
a URL. -/
def isUnreserved (c : Char) : Bool :=
  c.isAlpha || c.isDigit || c = '-' || c = '.' || c = '_' || c = '~'

/-- Characters allowed without percent-encoding in a URL path segment
(RFC 3986 `pchar` minus the pct-encoded production): unreserved
characters, sub-delims, and `:` / `@`. -/
def allowedInPathSegment (c : Char) : Bool :=
  isUnreserved c ||
  c = '!' || c = '$' || c = '&' || c = '\'' || c = '(' || c = ')' ||
  c = '*' || c = '+' || c = ',' || c = ';' || c = '=' || c = ':' || c = '@'

lemma getD_of_all {α : Type} (P : α → Prop) (l : List α) (d : α) (n : Nat)
    (hl : ∀ x ∈ l, P x) (hd : P d) : P (l.getD n d) := by
  unfold List.getD
  cases h : l.get? n with
  | none => exact hd
  | some x => exact hl x (List.get?_mem h)

lemma b64c_allowed (n : Nat) : allowedInPathSegment (b64c n) = true := by
  unfold b64c
  refine getD_of_all (fun c => allowedInPathSegment c = true) base64Alphabet 'A' n ?_ (by decide)
  decide

lemma base64urlEncode_chars (bs : List Nat) :
    ∀ c ∈ base64urlEncode bs, allowedInPathSegment c = true := by
  induction bs using base64urlEncode.induct with
  | case1 =>
    intro c hc
    simp [base64urlEncode] at hc
  | case2 b1 =>
    intro c hc
    simp only [base64urlEncode, List.mem_cons, List.not_mem_nil, or_false] at hc
    rcases hc with rfl | rfl | rfl | rfl
    · exact b64c_allowed _
    · exact b64c_allowed _
    · decide
    · decide
  | case3 b1 b2 =>
    intro c hc
    simp only [base64urlEncode, List.mem_cons, List.not_mem_nil, or_false] at hc
    rcases hc with rfl | rfl | rfl | rfl
    · exact b64c_allowed _
    · exact b64c_allowed _
    · exact b64c_allowed _
    · decide
  | case4 b1 b2 b3 rest ih =>
    intro c hc
    simp only [base64urlEncode, List.mem_cons] at hc
    rcases hc with rfl | rfl | rfl | rfl | hmem
    · exact b64c_allowed _
    · exact b64c_allowed _
    · exact b64c_allowed _
    · exact b64c_allowed _
    · exact ih c hmem

lemma base64urlEncode_length (bs : List Nat) :
    (base64urlEncode bs).length = (bs.length + 2) / 3 * 4 := by
  induction bs using base64urlEncode.induct with
  | case1 => rfl
  | case2 b1 => simp [base64urlEncode]
  | case3 b1 b2 => simp [base64urlEncode]
  | case4 b1 b2 b3 rest ih =>
    simp only [base64urlEncode, List.length_cons, ih]
    omega

/-- **C5**: for every byte input, the generated token consists solely
of characters that need no percent-encoding in a URL path segment
(the URL-safe base64 digits plus the `=` padding, which is a sub-delim);
and the token generated from 32 random bytes — the length the upload
handler uses — is 44 characters long: 43 base64 digits plus one padding
character, i.e. approximately 43 characters. -/
theorem c5_token_url_safe (bytes : List Nat) (hlen : bytes.length = 32) :
    (∀ bs : List Nat, ∀ c ∈ (GenerateSecureToken bs).data, allowedInPathSegment c = true) ∧
    (GenerateSecureToken bytes).length = 44 := by
  constructor
  · intro bs c hc
    exact base64urlEncode_chars bs c hc
  · show (base64urlEncode bytes).length = 44
    rw [base64urlEncode_length, hlen]

theorem c5_token_url_safe_witness :
    (GenerateSecureToken (List.replicate 32 0)).length = 44 :=
  (c5_token_url_safe (List.replicate 32 0) (by simp)).2

/-! ### The image ingestion pipeline (internal/services, ProcessAndSaveImage) -/

/-- The outcomes of the external steps of `ProcessAndSaveImage` for one
uploaded file: the declared file name, the content type
`http.DetectContentType` sniffs from the leading bytes, the result of
`image.Decode` (`some format` on success — only the gif/jpeg/png
decoders are registered via the blank imports, `none` on corrupt or
non-image data), whether `GenerateSecureToken(16)` obtains entropy and
the name it yields, and whether the format-specific encoder succeeds. -/
structure UploadInput where
  declaredFilename : String
  sniffedType : String
  decodeResult : Option String
  nameOk : Bool
  randomName : String
  encodeOk : Bool
  deriving DecidableEq, Repr

/-- The allow-list map `AllowebImageTypes` (sic) of the source. -/
def AllowebImageTypes (t : String) : Bool :=
  t == "image/jpeg" || t == "image/png" || t == "image/gif"

inductive ProcError
  | invalidType (t : String)
  | decodeError
  | nameGenError
  | unknownFormat (f : String)
  | encodeError
  deriving DecidableEq, Repr

/-- `ProcessAndSaveImage` (services, lines 30-98): sniff the content
type against the allow-list, decode, generate a random stored name,
create the output file (`os.Create` — the name enters the upload
directory), re-encode into it, and on encode failure remove the file
before returning (`os.Remove`, line 91).  The `default` branch of the
encode switch (line 87) returns without removing the created file; it
is unreachable when the decoded format comes from one of the three
registered decoders.  Failures of the external open/read/seek steps
abort before any state change and are not modelled. -/
def ProcessAndSaveImage (inp : UploadInput) (files : List String) :
    Except ProcError String × List String :=
  if ¬ AllowebImageTypes inp.sniffedType then
    (.error (.invalidType inp.sniffedType), files)
  else
    match inp.decodeResult with
    | none => (.error .decodeError, files)
    | some fmt =>
      if ¬ inp.nameOk then (.error .nameGenError, files)
      else
        let storedFilename := inp.randomName ++ "." ++ fmt
        let files2 := storedFilename :: files
        if fmt = "jpeg" ∨ fmt = "png" ∨ fmt = "gif" then
          if inp.encodeOk then (.ok storedFilename, files2)
          else (.error .encodeError, files2.erase storedFilename)
        else
          (.error (.unknownFormat fmt), files2)

lemma psi_invalid (inp : UploadInput) (files : List String)
    (hA : AllowebImageTypes inp.sniffedType = false) :
    ProcessAndSaveImage inp files = (.error (.invalidType inp.sniffedType), files) := by
  simp [ProcessAndSaveImage, hA]

lemma psi_decodeNone (inp : UploadInput) (files : List String)
    (hA : AllowebImageTypes inp.sniffedType = true) (hd : inp.decodeResult = none) :
    ProcessAndSaveImage inp files = (.error .decodeError, files) := by
  simp [ProcessAndSaveImage, hA, hd]

lemma psi_nameFail (inp : UploadInput) (files : List String) (fmt : String)
    (hA : AllowebImageTypes inp.sniffedType = true) (hd : inp.decodeResult = some fmt)
    (hn : inp.nameOk = false) :
    ProcessAndSaveImage inp files = (.error .nameGenError, files) := by
  simp [ProcessAndSaveImage, hA, hd, hn]

lemma psi_ok (inp : UploadInput) (files : List String) (fmt : String)
    (hA : AllowebImageTypes inp.sniffedType = true) (hd : inp.decodeResult = some fmt)
    (hn : inp.nameOk = true) (hfmt : fmt = "jpeg" ∨ fmt = "png" ∨ fmt = "gif")
    (he : inp.encodeOk = true) :
    ProcessAndSaveImage inp files =
      (.ok (inp.randomName ++ "." ++ fmt), (inp.randomName ++ "." ++ fmt) :: files) := by
  rcases hfmt with rfl | rfl | rfl <;> simp [ProcessAndSaveImage, hA, hd, hn, he]

lemma psi_encodeFail (inp : UploadInput) (files : List String) (fmt : String)
    (hA : AllowebImageTypes inp.sniffedType = true) (hd : inp.decodeResult = some fmt)
    (hn : inp.nameOk = true) (hfmt : fmt = "jpeg" ∨ fmt = "png" ∨ fmt = "gif")
    (he : inp.encodeOk = false) :
    ProcessAndSaveImage inp files = (.error .encodeError, files) := by
  rcases hfmt with rfl | rfl | rfl <;>
    simp [ProcessAndSaveImage, hA, hd, hn, he, List.erase_cons_head]

/-- **C6**: ingestion is all-or-nothing on disk.  On success exactly
the one new stored file is added; on every failure path (given that the
decoded format, when decoding succeeds, is one of the three registered
formats) the upload directory is exactly as before — in particular a
file whose sniffed type is outside the allow-list is rejected with
`InvalidType` and nothing persisted, a file that fails to decode is
rejected with `DecodeError` and nothing persisted, and an encode
failure removes the file created moments before.  The declared file
name plays no role at all in the result. -/
theorem c6_ingestion_all_or_nothing (inp : UploadInput) (files : List String)
    (hreg : inp.decodeResult = none ∨ inp.decodeResult = some "jpeg" ∨
            inp.decodeResult = some "png" ∨ inp.decodeResult = some "gif") :
    (∀ stored, (ProcessAndSaveImage inp files).1 = .ok stored →
      (ProcessAndSaveImage inp files).2 = stored :: files) ∧
    (∀ e, (ProcessAndSaveImage inp files).1 = .error e →
      (ProcessAndSaveImage inp files).2 = files) ∧
    (AllowebImageTypes inp.sniffedType = false →
      ProcessAndSaveImage inp files = (.error (.invalidType inp.sniffedType), files)) ∧
    (AllowebImageTypes inp.sniffedType = true → inp.decodeResult = none →
      ProcessAndSaveImage inp files = (.error .decodeError, files)) ∧
    (∀ n1 n2 : String,
      ProcessAndSaveImage { inp with declaredFilename := n1 } files =
      ProcessAndSaveImage { inp with declaredFilename := n2 } files) := by
  have hnames : ∀ n1 n2 : String,
      ProcessAndSaveImage { inp with declaredFilename := n1 } files =
      ProcessAndSaveImage { inp with declaredFilename := n2 } files :=
    fun n1 n2 => rfl
  by_cases hA : AllowebImageTypes inp.sniffedType = true
  · cases hd : inp.decodeResult with
    | none =>
      have hev := psi_decodeNone inp files hA hd
      refine ⟨?_, ?_, fun hfalse => absurd hA (by simp [hfalse]), fun _ _ => hev, fun n1 n2 => rfl⟩
      · intro stored h
        rw [hev] at h
        cases h
      · intro e _
        rw [hev]
    | some fmt =>
      have hfmt : fmt = "jpeg" ∨ fmt = "png" ∨ fmt = "gif" := by
        rw [hd] at hreg
        simpa using hreg
      by_cases hn : inp.nameOk = true
      · by_cases he : inp.encodeOk = true
        · have hev := psi_ok inp files fmt hA hd hn hfmt he
          refine ⟨?_, ?_, fun hfalse => absurd hA (by simp [hfalse]),
            fun _ hnone => absurd hnone (by simp), fun n1 n2 => rfl⟩
          · intro stored h
            rw [hev] at h ⊢
            cases h
            rfl
          · intro e h
            rw [hev] at h
            cases h
        · have hev := psi_encodeFail inp files fmt hA hd hn hfmt
            (by revert he; cases inp.encodeOk <;> simp)
          refine ⟨?_, ?_, fun hfalse => absurd hA (by simp [hfalse]),
            fun _ hnone => absurd hnone (by simp), fun n1 n2 => rfl⟩
          · intro stored h
            rw [hev] at h
            cases h
          · intro e _
            rw [hev]
      · have hev := psi_nameFail inp files fmt hA hd
          (by revert hn; cases inp.nameOk <;> simp)
        refine ⟨?_, ?_, fun hfalse => absurd hA (by simp [hfalse]),
          fun _ hnone => absurd hnone (by simp), fun n1 n2 => rfl⟩
        · intro stored h
          rw [hev] at h
          cases h
        · intro e _
          rw [hev]
  · have hA2 : AllowebImageTypes inp.sniffedType = false := by
      revert hA
      cases AllowebImageTypes inp.sniffedType <;> simp
    have hev := psi_invalid inp files hA2
    refine ⟨?_, ?_, fun _ => hev, fun htrue => absurd htrue hA, hnames⟩
    · intro stored h
      rw [hev] at h
      cases h
    · intro e _
      rw [hev]

/-- A non-image byte stream renamed with a `.png` extension: the
declared name says png, the sniffed type is a generic binary type. -/
def disguisedPng : UploadInput :=
  { declaredFilename := "evil.png", sniffedType := "application/octet-stream",
    decodeResult := none, nameOk := true, randomName := "r9", encodeOk := true }

theorem c6_ingestion_all_or_nothing_witness :
    ProcessAndSaveImage disguisedPng [] =
      (.error (.invalidType "application/octet-stream"), []) :=
  (c6_ingestion_all_or_nothing disguisedPng [] (Or.inl rfl)).2.2.1 rfl

/-! ### Batch upload (HandleUpload, handlers.go lines 197-328) -/

/-- `MaxUploadSize = 10 << 20` — the 10 MB per-file cap. -/
def MaxUploadSize : Nat := 10 * 2 ^ 20

/-- `MaxFiles = 10` — the per-batch file count cap. -/
def MaxFiles : Nat := 10

/-- One part of the multipart form: the declared name and size from the
`multipart.FileHeader`, the ingestion descriptor for its bytes, and the
result of this file's `GenerateSecureToken(32)` call (whether entropy
was available and the token produced). -/
structure FileHeader where
  filename : String
  size : Nat
  content : UploadInput
  tokenOk : Bool
  token : String
  deriving DecidableEq, Repr

inductive DBError
  | dupStoredFilename
  | dupToken
  deriving DecidableEq, Repr

/-- `CreateImageRecord` (database.go, lines 230-269): `INSERT INTO
images(...) VALUES(?, ?, ?, ?, 'pending')`; the UNIQUE constraints on
stored_filename and access_token reject duplicates; otherwise the row
is appended with a fresh AUTOINCREMENT id and status 'pending'. -/
def CreateImageRecord (rows : List Image) (userID : Nat)
    (originalFilename storedFilename accessToken : String) (now : Nat) :
    Except DBError (Nat × List Image) :=
  if rows.any (fun r => r.storedFilename == storedFilename) then
    .error .dupStoredFilename
  else if rows.any (fun r => r.accessToken == accessToken) then
    .error .dupToken
  else
    let newId := (rows.map Image.id).foldr max 0 + 1
    .ok (newId,
      rows ++ [{ id := newId, userID := userID, originalFilename := originalFilename,
                 storedFilename := storedFilename, accessToken := accessToken,
                 createdAt := now, viewedAt := none, status := "pending" }])

/-- The per-file error message `HandleUpload` derives from a
`ProcessAndSaveImage` failure (lines 282-285; the float-formatted size
details of the Go messages are elided). -/
def uploadErrMsg : ProcError → String
  | .invalidType _ => "Недопустимый тип файла (разрешены JPEG, PNG, GIF)."
  | .decodeError => "Не удалось распознать формат файла или файл поврежден."
  | _ => "Ошибка обработки файла."

/-- The accumulator of the per-file loop of `HandleUpload`: the success
URLs and error messages gathered so far, plus the shared state. -/
structure UploadAcc where
  successURLs : List String
  errorMessages : List String
  files : List String
  rows : List Image
  deriving DecidableEq, Repr

/-- One iteration of the per-file loop of `HandleUpload` (lines
266-316): empty and oversized files are rejected with a per-file
message and `continue`; an ingestion failure adds a per-file message;
a token-generation failure or an insert failure adds a message and
removes the just-written file (`cleanupFile`); otherwise a view URL is
recorded (or a config error message when BASE_URL is empty). -/
def processOneFile (userID : Nat) (baseURL : String) (now : Nat)
    (acc : UploadAcc) (fh : FileHeader) : UploadAcc :=
  if fh.size = 0 then
    { acc with errorMessages := acc.errorMessages ++
        ["Файл " ++ fh.filename ++ ": пустой и не будет обработан."] }
  else if fh.size > MaxUploadSize then
    { acc with errorMessages := acc.errorMessages ++
        ["Файл " ++ fh.filename ++ ": слишком большой."] }
  else
    match ProcessAndSaveImage fh.content acc.files with
    | (.error e, files2) =>
      { acc with files := files2,
                 errorMessages := acc.errorMessages ++
                   ["Файл " ++ fh.filename ++ ": " ++ uploadErrMsg e] }
    | (.ok storedFilename, files2) =>
      if fh.tokenOk = false then
        { acc with files := files2.erase storedFilename,
                   errorMessages := acc.errorMessages ++
                     ["Файл " ++ fh.filename ++ ": Внутренняя ошибка сервера (токен)."] }
      else
        match CreateImageRecord acc.rows userID fh.filename storedFilename fh.token now with
        | .error _ =>
          { acc with files := files2.erase storedFilename,
                     errorMessages := acc.errorMessages ++
                       ["Файл " ++ fh.filename ++ ": Внутренняя ошибка сервера (БД)."] }
        | .ok r =>
          if baseURL = "" then
            { acc with files := files2, rows := r.2,
                       errorMessages := acc.errorMessages ++
                         ["Файл " ++ fh.filename ++
                          ": успешно загружен, но ссылка не создана (ошибка конфигурации)."] }
          else
            { acc with files := files2, rows := r.2,
                       successURLs := acc.successURLs ++
                         [baseURL ++ "/view/" ++ fh.token] }

/-- What `HandleUpload` renders: either a whole-batch rejection or the
combined per-file listing. -/
inductive UploadOutcome
  | batchError (message : String)
  | results (successURLs : List String) (errorMessages : List String)
  deriving DecidableEq, Repr

/-- `HandleUpload` (handlers.go, lines 197-328): an empty selection or
a batch of more than `MaxFiles` files is rejected as a whole before the
loop touches any file; otherwise every file is processed in order and
the combined listing is rendered.  An empty BASE_URL contributes one
leading configuration error message (lines 261-264). -/
def HandleUpload (userID : Nat) (baseURL : String) (now : Nat)
    (fileHeaders : List FileHeader) (files : List String) (rows : List Image) :
    UploadOutcome × List String × List Image :=
  if fileHeaders.length = 0 then
    (.batchError "Вы не выбрали ни одного файла.", files, rows)
  else if fileHeaders.length > MaxFiles then
    (.batchError "Можно загрузить не более 10 файлов одновременно.", files, rows)
  else
    let initErrs : List String :=
      if baseURL = "" then
        ["Ошибка конфигурации сервера: невозможно сгенерировать ссылки."]
      else []
    let r := fileHeaders.foldl (processOneFile userID baseURL now)
      { successURLs := [], errorMessages := initErrs, files := files, rows := rows }
    (.results r.successURLs r.errorMessages, r.files, r.rows)

/-- Each loop iteration settles exactly one file: it appends exactly
one entry, either to the success URLs or to the error messages. -/
lemma processOneFile_count (userID : Nat) (baseURL : String) (now : Nat)
    (hb : baseURL ≠ "") (acc : UploadAcc) (fh : FileHeader) :
    (processOneFile userID baseURL now acc fh).successURLs.length +
      (processOneFile userID baseURL now acc fh).errorMessages.length =
    acc.successURLs.length + acc.errorMessages.length + 1 := by
  unfold processOneFile
  by_cases h0 : fh.size = 0
  · rw [if_pos h0]; simp_arith
  · rw [if_neg h0]
    by_cases h1 : fh.size > MaxUploadSize
    · rw [if_pos h1]; simp_arith
    · rw [if_neg h1]
      rcases hpr : ProcessAndSaveImage fh.content acc.files with ⟨res, files2⟩
      cases res with
      | error e => simp_arith
      | ok storedFilename =>
        cases ht : fh.tokenOk with
        | false => simp_arith
        | true =>
          cases hcr : CreateImageRecord acc.rows userID fh.filename storedFilename fh.token now with
          | error e2 => simp_arith [hcr]
          | ok r => simp_arith [hcr, hb]

lemma uploadFold_count (userID : Nat) (baseURL : String) (now : Nat)
    (hb : baseURL ≠ "") (fhs : List FileHeader) :
    ∀ acc : UploadAcc,
      (fhs.foldl (processOneFile userID baseURL now) acc).successURLs.length +
        (fhs.foldl (processOneFile userID baseURL now) acc).errorMessages.length =
      acc.successURLs.length + acc.errorMessages.length + fhs.length := by
  induction fhs with
  | nil => intro acc; simp
  | cons fh rest ih =>
    intro acc
    simp only [List.foldl_cons, List.length_cons]
    rw [ih (processOneFile userID baseURL now acc fh),
      processOneFile_count userID baseURL now hb acc fh]
    omega

/-- A healthy JPEG upload. -/
def okInputA : UploadInput :=
  { declaredFilename := "a.jpg", sniffedType := "image/jpeg", decodeResult := some "jpeg",
    nameOk := true, randomName := "na", encodeOk := true }

/-- A corrupt upload: sniffs as PNG but fails to decode. -/
def corruptInputB : UploadInput :=
  { declaredFilename := "b.png", sniffedType := "image/png", decodeResult := none,
    nameOk := true, randomName := "nb", encodeOk := true }

/-- A healthy GIF upload. -/
def okInputC : UploadInput :=
  { declaredFilename := "c.gif", sniffedType := "image/gif", decodeResult := some "gif",
    nameOk := true, randomName := "nc", encodeOk := true }

def fhA : FileHeader :=
  { filename := "a.jpg", size := 100, content := okInputA, tokenOk := true, token := "tokA" }

def fhB : FileHeader :=
  { filename := "b.png", size := 100, content := corruptInputB, tokenOk := true, token := "tokB" }

def fhC : FileHeader :=
  { filename := "c.gif", size := 100, content := okInputC, tokenOk := true, token := "tokC" }

/-- A file one byte over the 10 MB cap. -/
def fhBig : FileHeader :=
  { filename := "big.jpg", size := MaxUploadSize + 1, content := okInputA,
    tokenOk := true, token := "tokD" }

/-- **C7**: a batch of more than `MaxFiles` (10) files is rejected as a
whole before any file is touched (state unchanged); within the caps,
every file independently contributes exactly one entry — a link or a
per-file error — so failures are isolated per file: a batch of three
files with the second corrupt yields the two links and one error, and
a batch with one file over the size cap yields the other file's link
and one error for the oversized file alone. -/
theorem c7_batch_caps_and_isolation (userID : Nat) (baseURL : String) (now : Nat)
    (fileHeaders : List FileHeader) (files : List String) (rows : List Image)
    (hb : baseURL ≠ "") (hne : fileHeaders ≠ []) (hcap : fileHeaders.length ≤ MaxFiles) :
    (∀ (fhs2 : List FileHeader) (fs2 : List String) (rs2 : List Image),
      fhs2.length > MaxFiles →
        HandleUpload userID baseURL now fhs2 fs2 rs2 =
          (.batchError "Можно загрузить не более 10 файлов одновременно.", fs2, rs2)) ∧
    (∃ s e, (HandleUpload userID baseURL now fileHeaders files rows).1 = .results s e ∧
      s.length + e.length = fileHeaders.length) ∧
    ((HandleUpload 7 "https://x" 0 [fhA, fhB, fhC] [] []).1 =
      .results ["https://x/view/tokA", "https://x/view/tokC"]
        ["Файл b.png: Не удалось распознать формат файла или файл поврежден."]) ∧
    ((HandleUpload 7 "https://x" 0 [fhBig, fhC] [] []).1 =
      .results ["https://x/view/tokC"] ["Файл big.jpg: слишком большой."]) := by
  refine ⟨?_, ?_, by decide, by decide⟩
  · intro fhs2 fs2 rs2 hlen
    have h10 : MaxFiles = 10 := rfl
    unfold HandleUpload
    rw [if_neg (by omega), if_pos hlen]
  · have h0 : ¬ (fileHeaders.length = 0) := by
      simpa [List.length_eq_zero] using hne
    have h2 : ¬ (fileHeaders.length > MaxFiles) := by omega
    unfold HandleUpload
    rw [if_neg h0, if_neg h2]
    refine ⟨_, _, rfl, ?_⟩
    have hc := uploadFold_count userID baseURL now hb fileHeaders
      { successURLs := [],
        errorMessages :=
          if baseURL = "" then
            ["Ошибка конфигурации сервера: невозможно сгенерировать ссылки."]
          else [],
        files := files, rows := rows }
    simpa [if_neg hb] using hc

theorem c7_batch_caps_and_isolation_witness :
    (HandleUpload 7 "https://x" 0 [fhA, fhB, fhC] [] []).1 =
      UploadOutcome.results ["https://x/view/tokA", "https://x/view/tokC"]
        ["Файл b.png: Не удалось распознать формат файла или файл поврежден."] :=
  (c7_batch_caps_and_isolation 7 "https://x" 0 [fhA, fhB, fhC] [] []
    (by decide) (by decide) (by decide)).2.2.1

end ImageCleaner
